import Mathlib

/-!
Verification of the `StrategyOptimizer` core (src/unnamed/part_002,
exporting `class StrategyOptimizer`) of the morgan repository.

The TypeScript source is shallowly embedded: JavaScript numbers are modelled
as exact rationals (`ℚ`).  Values that the code can drive to `NaN` or
`Infinity` (metric ratios; the drawdown accumulator) live in the dedicated
domain `MetricVal`, which carries exact rationals, `a·√252/√v` values produced
by the Sharpe/Sortino formulas, `±Infinity` and `NaN`, together with the
JavaScript comparison semantics (`NaN` compares false, `Math.max` propagates
`NaN`, a sort comparator that evaluates to `NaN` counts as `0`).
`Math.random()` is modelled by an explicit stream `s : ℕ → ℚ` of draws
(assumed to lie in `[0,1)` where a theorem needs it) consumed in exactly the
order the source consumes them, and a running index into the stream is
threaded through every random-consuming operation.  JavaScript exceptions
(the `throw` in `optimize`, `reduce` of an empty array, property access on
`undefined`) are modelled by `Except String`.
-/

namespace Morgan

/-- `riskLevel: 'low' | 'medium' | 'high'` from `StrategyConfig`. -/
inductive RiskLevel where
  | low | medium | high
deriving DecidableEq, Repr

/-- `rebalanceFrequency: 'daily' | 'weekly' | 'monthly'` from `StrategyConfig`. -/
inductive RebalanceFrequency where
  | daily | weekly | monthly
deriving DecidableEq, Repr

/-- `interface StrategyConfig` (frontend/src/App.tsx).  Numeric fields are
exact rationals. -/
structure StrategyConfig where
  name : String
  description : String
  riskLevel : RiskLevel
  maxPositionSize : ℚ
  stopLossPercentage : ℚ
  takeProfitPercentage : ℚ
  maxDrawdown : ℚ
  rebalanceFrequency : RebalanceFrequency
  indicators : List String
deriving DecidableEq, Repr

/-- `interface MarketData` (frontend/src/types/trading.ts): one OHLCV bar.
The optimizer reads only `high`, `low` and `close`. -/
structure MarketData where
  symbol : String
  timestamp : String
  openPrice : ℚ
  high : ℚ
  low : ℚ
  close : ℚ
  volume : ℚ
  vwap : ℚ
  trades : ℚ
deriving DecidableEq, Repr

/-- The objective union type of `OptimizationConfig`. -/
inductive Objective where
  | sharpeRatio | sortinoRatio | calmarRatio | maxDrawdown
deriving DecidableEq, Repr

/-- `constraints` of `OptimizationConfig`: each field is a `[min, max]` pair. -/
structure Constraints where
  maxPositionSize : ℚ × ℚ
  stopLossPercentage : ℚ × ℚ
  takeProfitPercentage : ℚ × ℚ
  maxDrawdown : ℚ × ℚ
deriving DecidableEq, Repr

/-- `interface OptimizationConfig`.  The loop bounds `populationSize` and
`generations` are modelled as naturals: the source's `for`/`while` loops
perform zero iterations for any non-positive count, which coincides with the
value `0`. -/
structure OptimizationConfig where
  populationSize : ℕ
  generations : ℕ
  mutationRate : ℚ
  crossoverRate : ℚ
  objective : Objective
  constraints : Constraints
deriving DecidableEq, Repr

/-- The domain of metric values the source can produce: an exact rational
(`rat q`), the exact irrational `sq a v` denoting `a · √252 / √v` (produced by
the Sharpe/Sortino formulas, always with `v > 0`), `+Infinity`, `-Infinity`,
and `NaN`. -/
inductive MetricVal where
  | rat (q : ℚ)
  | sq (a v : ℚ)
  | inf
  | ninf
  | nan
deriving DecidableEq, Repr

/-- Three-way comparison of rationals. -/
def qcmp (a b : ℚ) : Ordering :=
  if a < b then .lt else if b < a then .gt else .eq

/-- Compare `a · √252 / √v` (with `v > 0`) against the rational `q`, by sign
analysis and squaring. -/
def cmpSqRat (a v q : ℚ) : Ordering :=
  if a = 0 then qcmp 0 q
  else if 0 < a then
    (if q ≤ 0 then .gt else qcmp (a ^ 2 * 252) (q ^ 2 * v))
  else
    (if 0 ≤ q then .lt else qcmp (q ^ 2 * v) (a ^ 2 * 252))

/-- Compare `a · √252 / √v` against `b · √252 / √w` (with `v, w > 0`), by sign
analysis and squaring. -/
def cmpSqSq (a v b w : ℚ) : Ordering :=
  if 0 < a then
    (if 0 < b then qcmp (a ^ 2 * w) (b ^ 2 * v) else .gt)
  else if a = 0 then qcmp 0 b
  else
    (if 0 ≤ b then .lt else qcmp (b ^ 2 * v) (a ^ 2 * w))

/-- Three-way comparison of non-`NaN` metric values (callers dispatch the
`NaN` cases first, mirroring JavaScript's comparison semantics). -/
def cmpVal : MetricVal → MetricVal → Ordering
  | .nan, _ => .eq
  | _, .nan => .eq
  | .inf, .inf => .eq
  | .inf, _ => .gt
  | _, .inf => .lt
  | .ninf, .ninf => .eq
  | .ninf, _ => .lt
  | _, .ninf => .gt
  | .rat p, .rat q => qcmp p q
  | .sq a v, .rat q => cmpSqRat a v q
  | .rat q, .sq a v => (cmpSqRat a v q).swap
  | .sq a v, .sq b w => cmpSqSq a v b w

/-- JavaScript `x > y`: `false` whenever either side is `NaN`. -/
def jsGt (x y : MetricVal) : Bool :=
  match x, y with
  | .nan, _ => false
  | _, .nan => false
  | x, y => cmpVal x y == .gt

/-- The effect of the sort comparator `(a, b) => b - a` on metric values `x`
(for `a`) and `y` (for `b`): `x` may precede `y` iff the comparator value
`y - x` is not positive.  A `NaN` comparator value counts as `0` per the
ECMAScript `SortCompare` specification, so `NaN` lets either order stand. -/
def jsSortLe (x y : MetricVal) : Bool :=
  match x, y with
  | .nan, _ => true
  | _, .nan => true
  | x, y => !(cmpVal y x == .gt)

/-- JavaScript `Math.max`: propagates `NaN`, otherwise the larger value. -/
def jsMax (x y : MetricVal) : MetricVal :=
  match x, y with
  | .nan, _ => .nan
  | _, .nan => .nan
  | x, y => if cmpVal x y = .lt then y else x

/-- `returns.reduce((a, b) => a + b, 0)`. -/
def sumList (l : List ℚ) : ℚ := l.foldl (· + ·) 0

/-- `metrics` record of `OptimizationResult`. -/
structure Metrics where
  sharpeRatio : MetricVal
  sortinoRatio : MetricVal
  calmarRatio : MetricVal
  maxDrawdown : MetricVal
  totalReturn : MetricVal
  winRate : MetricVal
deriving DecidableEq, Repr

/-- `interface OptimizationResult`. -/
structure OptimizationResult where
  parameters : StrategyConfig
  metrics : Metrics
deriving DecidableEq, Repr

/-- One iteration of the `returns.forEach` drawdown loop of
`calculateMetrics`: state is `(currentValue, peak, maxDrawdown)` with
`currentValue` and `peak` always finite rationals.  When `peak = 0` the
division `(peak - currentValue) / peak` follows JavaScript semantics:
positive numerator gives `+Infinity`, negative gives `-Infinity`, `0/0` is
`NaN`. -/
def drawdownStep (st : ℚ × ℚ × MetricVal) (r : ℚ) : ℚ × ℚ × MetricVal :=
  let currentValue := st.1 * (1 + r)
  let peak := if st.2.1 < currentValue then currentValue else st.2.1
  let drawdown : MetricVal :=
    if peak = 0 then
      (if currentValue < 0 then .inf else if 0 < currentValue then .ninf else .nan)
    else .rat ((peak - currentValue) / peak)
  (currentValue, peak, jsMax st.2.2 drawdown)

/-- The maximum-drawdown accumulation of `calculateMetrics` (lines 112-123):
`peak` starts at `0`, `currentValue` at `1`, `maxDrawdown` at `0`. -/
def maxDrawdownOf (returns : List ℚ) : MetricVal :=
  (returns.foldl drawdownStep (1, 0, .rat 0)).2.2

/-- `const riskFreeRate = 0.02`. -/
def riskFreeRate : ℚ := 2 / 100

/-- `StrategyOptimizer.calculateMetrics`.  For an empty `returns` the
JavaScript `avgReturn = totalReturn / returns.length` is `0/0 = NaN`, which
propagates to the standard deviations, so the `stdDev === 0` guards (false on
`NaN`) are not taken and `sharpeRatio`, `sortinoRatio` and `winRate` are
`NaN`.  For a non-empty list, `stdDev = √variance` with `variance` rational,
and `stdDev === 0` iff `variance = 0`; when `variance ≠ 0` the Sharpe value
`(avg - rf/252)/stdDev · √252` is the exact value `sq (avg - rf/252) variance`
(similarly for Sortino with the downside variance, which per the source
divides the sum of squared negative returns by the full count). -/
def calculateMetrics (returns : List ℚ) : Metrics :=
  let n : ℕ := returns.length
  let totalReturn : ℚ := sumList returns
  let sharpe : MetricVal :=
    if n = 0 then .nan
    else
      let avg := totalReturn / (n : ℚ)
      let variance := sumList (returns.map fun b => (b - avg) ^ 2) / (n : ℚ)
      if variance = 0 then .rat 0 else .sq (avg - riskFreeRate / 252) variance
  let sortino : MetricVal :=
    if n = 0 then .nan
    else
      let avg := totalReturn / (n : ℚ)
      let downsideVariance :=
        sumList ((returns.filter (fun r => r < 0)).map fun b => b ^ 2) / (n : ℚ)
      if downsideVariance = 0 then .rat 0
      else .sq (avg - riskFreeRate / 252) downsideVariance
  let mdd : MetricVal := maxDrawdownOf returns
  let calmar : MetricVal :=
    match mdd with
    | .rat q =>
        if q = 0 then .rat 0
        else if n = 0 then .nan else .rat (totalReturn / (n : ℚ) * 252 / q)
    | .inf => if n = 0 then .nan else .rat 0
    | .ninf => if n = 0 then .nan else .rat 0
    | _ => .nan
  let winRate : MetricVal :=
    if n = 0 then .nan
    else .rat (((returns.filter (fun r => 0 < r)).length : ℚ) / (n : ℚ))
  { sharpeRatio := sharpe, sortinoRatio := sortino, calmarRatio := calmar,
    maxDrawdown := mdd, totalReturn := .rat totalReturn, winRate := winRate }

/-- JavaScript `arr.slice(a, b)` for `0 ≤ a ≤ b`: the elements at indices
`a, …, b-1`. -/
def jsSlice {α : Type} (l : List α) (a b : ℕ) : List α := (l.drop a).take (b - a)

/-- `StrategyOptimizer.calculateSMA`: mean of the closes.  Its call sites pass
non-empty slices, so the `0/0` case of the JavaScript division is
unreachable. -/
def calculateSMA (data : List MarketData) : ℚ :=
  sumList (data.map (·.close)) / (data.length : ℚ)

/-- Mutable state of the `evaluateStrategy` simulation loop. -/
structure SimState where
  returns : List ℚ
  position : ℤ
  entryPrice : ℚ
deriving DecidableEq, Repr

/-- One iteration (index `i`) of the `for` loop of
`StrategyOptimizer.evaluateStrategy`.  In `ℕ`, `i - 20` equals the source's
`Math.max(0, i - 20)` (likewise `i - 50`).  The simulation pushes the signed
return `position * (exitPrice - entryPrice) / entryPrice` on exit; bars are
assumed to carry non-zero closes so that the division is the exact rational
the source computes. -/
def simStep (strategy : StrategyConfig) (historicalData : List MarketData)
    (st : SimState) (i : ℕ) : SimState :=
  match historicalData.get? i with
  | none => st
  | some currentData =>
    let sma20 := calculateSMA (jsSlice historicalData (i - 20) (i + 1))
    let sma50 := calculateSMA (jsSlice historicalData (i - 50) (i + 1))
    if st.position = 0 then
      if sma50 < sma20 then
        { st with position := 1, entryPrice := currentData.close }
      else if sma20 < sma50 then
        { st with position := -1, entryPrice := currentData.close }
      else st
    else
      let stopLoss :=
        if st.position = 1 then st.entryPrice * (1 - strategy.stopLossPercentage / 100)
        else st.entryPrice * (1 + strategy.stopLossPercentage / 100)
      let takeProfit :=
        if st.position = 1 then st.entryPrice * (1 + strategy.takeProfitPercentage / 100)
        else st.entryPrice * (1 - strategy.takeProfitPercentage / 100)
      if (st.position = 1 ∧ currentData.low ≤ stopLoss)
          ∨ (st.position = -1 ∧ stopLoss ≤ currentData.high)
          ∨ (st.position = 1 ∧ takeProfit ≤ currentData.high)
          ∨ (st.position = -1 ∧ currentData.low ≤ takeProfit) then
        let exitPrice := if st.position = 1 then min stopLoss takeProfit
                         else max stopLoss takeProfit
        { returns := st.returns ++
            [(st.position : ℚ) * (exitPrice - st.entryPrice) / st.entryPrice],
          position := 0, entryPrice := st.entryPrice }
      else st

/-- The trade-return sequence produced by `evaluateStrategy`'s simulation
loop (`for (let i = 1; i < historicalData.length; i++)`). -/
def evaluateReturns (strategy : StrategyConfig) (historicalData : List MarketData) :
    List ℚ :=
  ((List.range' 1 (historicalData.length - 1)).foldl
    (simStep strategy historicalData) ⟨[], 0, 0⟩).returns

/-- `StrategyOptimizer.evaluateStrategy`: simulate, then score. -/
def evaluateStrategy (strategy : StrategyConfig) (historicalData : List MarketData) :
    OptimizationResult :=
  { parameters := strategy, metrics := calculateMetrics (evaluateReturns strategy historicalData) }

/-- `StrategyOptimizer.randomInRange(min, max) = min + Math.random() * (max - min)`,
with the consumed draw `r` made explicit. -/
def randomInRange (r lo hi : ℚ) : ℚ := lo + r * (hi - lo)

/-- One candidate of `generateInitialPopulation` (loop index `i`); the four
numeric fields consume the draws `s k, …, s (k+3)` in source order. -/
def initCandidate (cfg : OptimizationConfig) (s : ℕ → ℚ) (k i : ℕ) : StrategyConfig :=
  { name := "Strategy_" ++ toString i
    description := "Optimized strategy"
    riskLevel := .medium
    maxPositionSize :=
      randomInRange (s k) cfg.constraints.maxPositionSize.1 cfg.constraints.maxPositionSize.2
    stopLossPercentage :=
      randomInRange (s (k + 1)) cfg.constraints.stopLossPercentage.1 cfg.constraints.stopLossPercentage.2
    takeProfitPercentage :=
      randomInRange (s (k + 2)) cfg.constraints.takeProfitPercentage.1 cfg.constraints.takeProfitPercentage.2
    maxDrawdown :=
      randomInRange (s (k + 3)) cfg.constraints.maxDrawdown.1 cfg.constraints.maxDrawdown.2
    rebalanceFrequency := .daily
    indicators := ["sma", "ema", "rsi", "macd"] }

/-- `StrategyOptimizer.generateInitialPopulation`, returning the population
and the next unconsumed stream index (4 draws per candidate). -/
def generateInitialPopulation (cfg : OptimizationConfig) (s : ℕ → ℚ) :
    List StrategyConfig × ℕ :=
  ((List.range cfg.populationSize).map (fun i => initCandidate cfg s (4 * i) i),
    4 * cfg.populationSize)

/-- `Math.random() < 0.5 ? x : y`. -/
def pick {α : Type} (r : ℚ) (x y : α) : α := if r < 1 / 2 then x else y

/-- The child name `` `Strategy_${Math.random().toString(36).substr(2, 9)}` ``:
a display-only tag derived from one draw. -/
def randomName (r : ℚ) : String := "Strategy_" ++ toString r

/-- `[...new Set(l)]`: deduplication keeping first occurrences, in JavaScript
`Set` insertion order. -/
def setDedup : List String → List String
  | [] => []
  | x :: xs => x :: setDedup (xs.filter (fun y => y ≠ x))
termination_by l => l.length
decreasing_by
  simp only [List.length_cons]
  exact Nat.lt_succ_of_le (List.length_filter_le _ _)

/-- `StrategyOptimizer.crossover`: draws `s k, …, s (k+6)`, in the evaluation
order of the object literal (name first, then riskLevel, the four numeric
fields, rebalanceFrequency); `indicators` is the set union of the parents'. -/
def crossover (s : ℕ → ℚ) (k : ℕ) (parent1 parent2 : StrategyConfig) : StrategyConfig :=
  { name := randomName (s k)
    description := "Optimized strategy"
    riskLevel := pick (s (k + 1)) parent1.riskLevel parent2.riskLevel
    maxPositionSize := pick (s (k + 2)) parent1.maxPositionSize parent2.maxPositionSize
    stopLossPercentage := pick (s (k + 3)) parent1.stopLossPercentage parent2.stopLossPercentage
    takeProfitPercentage := pick (s (k + 4)) parent1.takeProfitPercentage parent2.takeProfitPercentage
    maxDrawdown := pick (s (k + 5)) parent1.maxDrawdown parent2.maxDrawdown
    rebalanceFrequency := pick (s (k + 6)) parent1.rebalanceFrequency parent2.rebalanceFrequency
    indicators := setDedup (parent1.indicators ++ parent2.indicators) }

/-- One `if (Math.random() < this.config.mutationRate) field = randomInRange(...)`
block of `mutate`: the coin always consumes one draw, and a redraw consumes a
second one, so the next stream index depends on the outcome. -/
def mutateField (rate : ℚ) (bound : ℚ × ℚ) (s : ℕ → ℚ) (k : ℕ) (v : ℚ) : ℚ × ℕ :=
  if s k < rate then (randomInRange (s (k + 1)) bound.1 bound.2, k + 2) else (v, k + 1)

/-- `StrategyOptimizer.mutate`: the four numeric fields are considered in
source order; all other fields of the spread copy `{ ...strategy }` pass
through. -/
def mutate (cfg : OptimizationConfig) (s : ℕ → ℚ) (k : ℕ) (strategy : StrategyConfig) :
    StrategyConfig × ℕ :=
  let m1 := mutateField cfg.mutationRate cfg.constraints.maxPositionSize s k strategy.maxPositionSize
  let m2 := mutateField cfg.mutationRate cfg.constraints.stopLossPercentage s m1.2 strategy.stopLossPercentage
  let m3 := mutateField cfg.mutationRate cfg.constraints.takeProfitPercentage s m2.2 strategy.takeProfitPercentage
  let m4 := mutateField cfg.mutationRate cfg.constraints.maxDrawdown s m3.2 strategy.maxDrawdown
  ({ strategy with
      maxPositionSize := m1.1
      stopLossPercentage := m2.1
      takeProfitPercentage := m3.1
      maxDrawdown := m4.1 }, m4.2)

/-- `this.config.objective` field access on a metrics record. -/
def getObjective (obj : Objective) (m : Metrics) : MetricVal :=
  match obj with
  | .sharpeRatio => m.sharpeRatio
  | .sortinoRatio => m.sortinoRatio
  | .calmarRatio => m.calmarRatio
  | .maxDrawdown => m.maxDrawdown

/-- The reducer of `results.reduce((best, current) => currentMetric > bestMetric
? current : best)`. -/
def betterOf (obj : Objective) (best current : OptimizationResult) : OptimizationResult :=
  if jsGt (getObjective obj current.metrics) (getObjective obj best.metrics) then current
  else best

/-- `results.reduce(...)` with no initial value: seeded by the first element,
and (as in JavaScript) undefined on an empty array — the caller raises
`TypeError` in that case. -/
def currentBestOf (obj : Objective) : List OptimizationResult → Option OptimizationResult
  | [] => none
  | h :: t => some (t.foldl (betterOf obj) h)

/-- `if (!bestResult || currentBest.metrics[obj] > bestResult.metrics[obj])
bestResult = currentBest`. -/
def updateBest (obj : Objective) : Option OptimizationResult → OptimizationResult →
    OptimizationResult
  | none, currentBest => currentBest
  | some b, currentBest =>
      if jsGt (getObjective obj currentBest.metrics) (getObjective obj b.metrics) then currentBest
      else b

/-- Insert into a sorted list, before the first element `y` with `le x y`
(stable: an element is inserted after the existing elements it ties with,
which entered the list earlier in the original order). -/
def insertSorted {α : Type} (le : α → α → Bool) (x : α) : List α → List α
  | [] => [x]
  | y :: ys => if le x y then x :: y :: ys else y :: insertSorted le x ys

/-- A stable sort with respect to the total preorder `le`.  For a consistent
comparator, ECMAScript `Array.prototype.sort` is specified to produce exactly
the stable order, so any stable sorting algorithm is a faithful model of
`results.sort((a, b) => b.metrics[obj] - a.metrics[obj])`. -/
def stableSort {α : Type} (le : α → α → Bool) : List α → List α
  | [] => []
  | x :: xs => insertSorted le x (stableSort le xs)

/-- The selection step of `optimize` (lines 250-254): stable-sort the
generation's results descending by the objective and keep the top
`Math.floor(population.length / 2)` (the code takes `population.length`,
which equals `results.length`). -/
def selectTopHalf (obj : Objective) (results : List OptimizationResult) :
    List OptimizationResult :=
  (stableSort (fun a b => jsSortLe (getObjective obj a.metrics) (getObjective obj b.metrics))
    results).take (results.length / 2)

/-- JavaScript indexed access `l[i]` for an integer index: `undefined`
(`none`) when out of range. -/
def jsGet {α : Type} (l : List α) (i : ℤ) : Option α :=
  if 0 ≤ i then l.get? i.toNat else none

/-- One iteration of the `while (newPopulation.length < populationSize)` body:
pick two parents at `Math.floor(Math.random() * selected.length)` (accessing
`.parameters` of `undefined` throws when `selected` is empty), cross them
over (7 draws) and mutate the child.  Returns the child and the next stream
index. -/
def makeChild (cfg : OptimizationConfig) (s : ℕ → ℚ) (k : ℕ)
    (selected : List OptimizationResult) : Except String (StrategyConfig × ℕ) :=
  match jsGet selected ⌊s k * (selected.length : ℚ)⌋,
        jsGet selected ⌊s (k + 1) * (selected.length : ℚ)⌋ with
  | some p1, some p2 =>
      let child := crossover s (k + 2) p1.parameters p2.parameters
      .ok (mutate cfg s (k + 9) child)
  | _, _ => .error "TypeError: Cannot read properties of undefined (reading 'parameters')"

/-- The `while` loop building `newPopulation`: it runs until the new
population reaches `populationSize`, so the remaining count is the
recursion's fuel. -/
def buildPopulation (cfg : OptimizationConfig) (s : ℕ → ℚ)
    (selected : List OptimizationResult) :
    ℕ → ℕ → Except String (List StrategyConfig × ℕ)
  | 0, k => .ok ([], k)
  | m + 1, k =>
      match makeChild cfg s k selected with
      | .error e => .error e
      | .ok (child, k') =>
          match buildPopulation cfg s selected m k' with
          | .error e => .error e
          | .ok (rest, k'') => .ok (child :: rest, k'')

/-- Loop state of `optimize`: the current population, the best-ever result
accumulator, and the next stream index. -/
def GenState : Type := List StrategyConfig × Option OptimizationResult × ℕ

/-- One generation of `optimize` (lines 234-271): evaluate every candidate,
update the best-ever accumulator (the empty-population `reduce` throws),
select the top half, and breed the next population. -/
def generationStep (cfg : OptimizationConfig) (historicalData : List MarketData)
    (s : ℕ → ℚ) (st : GenState) : Except String GenState :=
  let results := st.1.map (fun strategy => evaluateStrategy strategy historicalData)
  match currentBestOf cfg.objective results with
  | none => .error "TypeError: Reduce of empty array with no initial value"
  | some currentBest =>
      let bestResult := updateBest cfg.objective st.2.1 currentBest
      let selected := selectTopHalf cfg.objective results
      match buildPopulation cfg s selected cfg.populationSize st.2.2 with
      | .error e => .error e
      | .ok (newPopulation, k') => .ok (newPopulation, some bestResult, k')

/-- The `for (let generation = 0; ...)` loop of `optimize`. -/
def optimizeLoop (cfg : OptimizationConfig) (historicalData : List MarketData)
    (s : ℕ → ℚ) : ℕ → GenState → Except String (Option OptimizationResult)
  | 0, st => .ok st.2.1
  | g + 1, st =>
      match generationStep cfg historicalData s st with
      | .error e => .error e
      | .ok st' => optimizeLoop cfg historicalData s g st'

/-- `StrategyOptimizer.optimize`: initial population, generational loop, and
the final `if (!bestResult) throw new Error('Optimization failed to find a
solution')`. -/
def optimize (cfg : OptimizationConfig) (historicalData : List MarketData)
    (s : ℕ → ℚ) : Except String OptimizationResult :=
  let init := generateInitialPopulation cfg s
  match optimizeLoop cfg historicalData s cfg.generations (init.1, none, init.2) with
  | .error e => .error e
  | .ok none => .error "Optimization failed to find a solution"
  | .ok (some bestResult) => .ok bestResult

/-- Whether a metric value is a plain finite rational. -/
def MetricVal.isRat : MetricVal → Bool
  | .rat _ => true
  | _ => false

/-- Every numeric field of `cfg` lies inside the corresponding `[min, max]`
bound of `c` (the §3 invariant of the spec). -/
def inBounds (c : Constraints) (cfg : StrategyConfig) : Prop :=
  c.maxPositionSize.1 ≤ cfg.maxPositionSize ∧ cfg.maxPositionSize ≤ c.maxPositionSize.2 ∧
  c.stopLossPercentage.1 ≤ cfg.stopLossPercentage ∧ cfg.stopLossPercentage ≤ c.stopLossPercentage.2 ∧
  c.takeProfitPercentage.1 ≤ cfg.takeProfitPercentage ∧ cfg.takeProfitPercentage ≤ c.takeProfitPercentage.2 ∧
  c.maxDrawdown.1 ≤ cfg.maxDrawdown ∧ cfg.maxDrawdown ≤ c.maxDrawdown.2

instance (c : Constraints) (cfg : StrategyConfig) : Decidable (inBounds c cfg) := by
  unfold inBounds; infer_instance

/-- Every bound of `c` is ordered (`min ≤ max`). -/
def boundsOrdered (c : Constraints) : Prop :=
  c.maxPositionSize.1 ≤ c.maxPositionSize.2 ∧
  c.stopLossPercentage.1 ≤ c.stopLossPercentage.2 ∧
  c.takeProfitPercentage.1 ≤ c.takeProfitPercentage.2 ∧
  c.maxDrawdown.1 ≤ c.maxDrawdown.2

instance (c : Constraints) : Decidable (boundsOrdered c) := by
  unfold boundsOrdered; infer_instance

/-- The random stream draws lie in `[0, 1)`, as `Math.random()` guarantees. -/
def StreamOK (s : ℕ → ℚ) : Prop := ∀ n, 0 ≤ s n ∧ s n < 1

/-- Test fixture: an OHLC bar with the given high, low and close. -/
def mkBar (h l c : ℚ) : MarketData :=
  { symbol := "TEST", timestamp := "", openPrice := c, high := h, low := l,
    close := c, volume := 0, vwap := 0, trades := 0 }

/-- Test fixture: the spec's scenario strategy — stop-loss 5%, take-profit
10%. -/
def specStrategy : StrategyConfig :=
  { name := "S", description := "", riskLevel := .medium, maxPositionSize := 1,
    stopLossPercentage := 5, takeProfitPercentage := 10, maxDrawdown := 1,
    rebalanceFrequency := .daily, indicators := ["sma"] }

/-- The spec's 3-bar scenario: the third bar touches both the stop-loss 95 and
the take-profit 110 of a long entered at 100 (low 94, high 111). -/
def threeBars : List MarketData :=
  [mkBar 100 100 100, mkBar 100 100 100, mkBar 111 94 100]

/-- A 23-bar realization of the spec's scenario: bar 0 closes low so that the
two moving averages first differ at index 21 (`sma20` averages closes 1-21,
`sma50` closes 0-21), a long is entered there at close 100, and the final bar
(low 94, high 111) touches both thresholds. -/
def bars23 : List MarketData :=
  mkBar 1 1 1 :: (List.replicate 21 (mkBar 100 100 100) ++ [mkBar 111 94 100])

/-- The all-zeros random stream (every `Math.random()` call returns `0`). -/
def zeroStream : ℕ → ℚ := fun _ => 0

/-- The constant-`1/2` random stream. -/
def halfStream : ℕ → ℚ := fun _ => 1 / 2

/-- Test fixture: a well-formed two-candidate, one-generation configuration. -/
def demoCfg : OptimizationConfig :=
  { populationSize := 2, generations := 1, mutationRate := 0, crossoverRate := 1 / 2,
    objective := .maxDrawdown,
    constraints := { maxPositionSize := (0, 1), stopLossPercentage := (5, 5),
                     takeProfitPercentage := (10, 10), maxDrawdown := (1, 1) } }

/-- Test fixture: like `demoCfg` but with an inverted `maxPositionSize` bound
(`min = 1 > 0 = max`), a configuration error per §7 of the spec. -/
def badBoundsCfg : OptimizationConfig :=
  { populationSize := 2, generations := 1, mutationRate := 0, crossoverRate := 1 / 2,
    objective := .maxDrawdown,
    constraints := { maxPositionSize := (1, 0), stopLossPercentage := (5, 5),
                     takeProfitPercentage := (10, 10), maxDrawdown := (1, 1) } }

/-- Test fixture: an evaluated candidate whose objective (`sharpeRatio`) value
is the rational `q`. -/
def mkCand (nm : String) (q : ℚ) : OptimizationResult :=
  { parameters := { specStrategy with name := nm },
    metrics := { sharpeRatio := .rat q, sortinoRatio := .rat 0, calmarRatio := .rat 0,
                 maxDrawdown := .rat 0, totalReturn := .rat 0, winRate := .rat 0 } }

/-- The five-candidate selection example of §8 of the spec: objective values
`[0.1, 0.5, 0.3, 0.5, 0.2]`. -/
def fiveCands : List OptimizationResult :=
  [mkCand "A" (1 / 10), mkCand "B" (1 / 2), mkCand "C" (3 / 10),
   mkCand "D" (1 / 2), mkCand "E" (1 / 5)]

/-! ## General lemmas about the comparison domain -/

theorem qcmp_self (a : ℚ) : qcmp a a = .eq := by
  simp [qcmp]

theorem jsGt_self (x : MetricVal) : jsGt x x = false := by
  cases x with
  | rat q =>
      show (qcmp q q == Ordering.gt) = false
      rw [qcmp_self]
      rfl
  | sq a v =>
      show (cmpSqSq a v a v == Ordering.gt) = false
      unfold cmpSqSq
      split_ifs with h1 h2 h3
      · rw [qcmp_self]
        rfl
      · rw [← h2, qcmp_self]
        rfl
      · rfl
      · rw [qcmp_self]
        rfl
  | inf => rfl
  | ninf => rfl
  | nan => rfl

theorem jsGt_rat_rat (p q : ℚ) : jsGt (.rat p) (.rat q) = decide (q < p) := by
  show (qcmp p q == Ordering.gt) = decide (q < p)
  unfold qcmp
  by_cases h1 : p < q
  · rw [if_pos h1, decide_eq_false (asymm h1)]
    rfl
  · by_cases h2 : q < p
    · rw [if_neg h1, if_pos h2, decide_eq_true h2]
      rfl
    · rw [if_neg h1, if_neg h2, decide_eq_false h2]
      rfl

theorem jsSortLe_rat_rat (p q : ℚ) : jsSortLe (.rat p) (.rat q) = decide (q ≤ p) := by
  show (!(qcmp q p == Ordering.gt)) = decide (q ≤ p)
  unfold qcmp
  by_cases h1 : q < p
  · rw [if_pos h1, decide_eq_true (le_of_lt h1)]
    rfl
  · by_cases h2 : p < q
    · rw [if_neg h1, if_pos h2, decide_eq_false (not_le_of_lt h2)]
      rfl
    · rw [if_neg h1, if_neg h2, decide_eq_true (le_of_not_lt h2)]
      rfl

/-! ## General lemmas about `setDedup` and the stable sort -/

theorem setDedup_cons (x : String) (xs : List String) :
    setDedup (x :: xs) = x :: setDedup (xs.filter (fun y => y ≠ x)) := by
  simp [setDedup]

theorem mem_setDedup {a : String} : ∀ l : List String, a ∈ setDedup l ↔ a ∈ l
  | [] => by simp [setDedup]
  | x :: xs => by
      rw [setDedup_cons]
      by_cases hax : a = x
      · simp [hax]
      · simp only [List.mem_cons, hax, false_or]
        rw [mem_setDedup (xs.filter (fun y => y ≠ x))]
        simp [List.mem_filter, hax]
termination_by l => l.length
decreasing_by
  simp only [List.length_cons]
  exact Nat.lt_succ_of_le (List.length_filter_le _ _)

theorem length_insertSorted {α : Type} (le : α → α → Bool) (x : α) (l : List α) :
    (insertSorted le x l).length = l.length + 1 := by
  induction l with
  | nil => rfl
  | cons y ys ih =>
      simp only [insertSorted]
      split <;> simp [ih]

theorem length_stableSort {α : Type} (le : α → α → Bool) (l : List α) :
    (stableSort le l).length = l.length := by
  induction l with
  | nil => rfl
  | cons x xs ih => simp [stableSort, length_insertSorted, ih]

theorem mem_insertSorted {α : Type} (le : α → α → Bool) (x a : α) (l : List α) :
    a ∈ insertSorted le x l ↔ a = x ∨ a ∈ l := by
  induction l with
  | nil => simp [insertSorted]
  | cons y ys ih =>
      simp only [insertSorted]
      split
      · simp [List.mem_cons]
      · simp only [List.mem_cons, ih]
        tauto

theorem mem_stableSort {α : Type} (le : α → α → Bool) (a : α) (l : List α) :
    a ∈ stableSort le l ↔ a ∈ l := by
  induction l with
  | nil => simp [stableSort]
  | cons x xs ih => simp [stableSort, mem_insertSorted, ih]

theorem pairwise_insertSorted {α : Type} (le : α → α → Bool) (x : α) (l : List α)
    (htot : ∀ b ∈ l, le x b = true ∨ le b x = true)
    (htrans : ∀ b c, b ∈ l → c ∈ l → le x b = true → le b c = true → le x c = true)
    (hl : l.Pairwise (fun a b => le a b = true)) :
    (insertSorted le x l).Pairwise (fun a b => le a b = true) := by
  induction l with
  | nil => simp [insertSorted]
  | cons y ys ih =>
      rw [List.pairwise_cons] at hl
      simp only [insertSorted]
      split
      · rename_i hxy
        refine List.Pairwise.cons ?_ (List.Pairwise.cons hl.1 hl.2)
        intro z hz
        rcases List.mem_cons.mp hz with rfl | hz'
        · exact hxy
        · exact htrans y z (List.mem_cons_self _ _) (List.mem_cons_of_mem _ hz') hxy (hl.1 z hz')
      · rename_i hxy
        have hyx : le y x = true := by
          rcases htot y (List.mem_cons_self _ _) with h | h
          · exact absurd h hxy
          · exact h
        refine List.Pairwise.cons ?_ ?_
        · intro z hz
          rcases (mem_insertSorted le x z ys).mp hz with rfl | hz'
          · exact hyx
          · exact hl.1 z hz'
        · exact ih (fun b hb => htot b (List.mem_cons_of_mem _ hb))
            (fun b c hb hc => htrans b c (List.mem_cons_of_mem _ hb) (List.mem_cons_of_mem _ hc))
            hl.2

theorem pairwise_stableSort {α : Type} (le : α → α → Bool) (l : List α)
    (htot : ∀ a b, a ∈ l → b ∈ l → le a b = true ∨ le b a = true)
    (htrans : ∀ a b c, a ∈ l → b ∈ l → c ∈ l →
      le a b = true → le b c = true → le a c = true) :
    (stableSort le l).Pairwise (fun a b => le a b = true) := by
  induction l with
  | nil => simp [stableSort]
  | cons x xs ih =>
      simp only [stableSort]
      refine pairwise_insertSorted le x (stableSort le xs) ?_ ?_ ?_
      · intro b hb
        exact htot x b (List.mem_cons_self _ _)
          (List.mem_cons_of_mem _ ((mem_stableSort le b xs).mp hb))
      · intro b c hb hc
        exact htrans x b c (List.mem_cons_self _ _)
          (List.mem_cons_of_mem _ ((mem_stableSort le b xs).mp hb))
          (List.mem_cons_of_mem _ ((mem_stableSort le c xs).mp hc))
      · exact ih
          (fun a b ha hb => htot a b (List.mem_cons_of_mem _ ha) (List.mem_cons_of_mem _ hb))
          (fun a b c ha hb hc => htrans a b c (List.mem_cons_of_mem _ ha)
            (List.mem_cons_of_mem _ hb) (List.mem_cons_of_mem _ hc))

/-! ## Lemmas about the random helpers -/

theorem pick_or {α : Type} (r : ℚ) (x y : α) : pick r x y = x ∨ pick r x y = y := by
  unfold pick
  split_ifs
  · exact Or.inl rfl
  · exact Or.inr rfl

theorem pick_bound {lo hi : ℚ} (r x y : ℚ) (hx1 : lo ≤ x) (hx2 : x ≤ hi)
    (hy1 : lo ≤ y) (hy2 : y ≤ hi) : lo ≤ pick r x y ∧ pick r x y ≤ hi := by
  rcases pick_or r x y with h | h <;> rw [h]
  · exact ⟨hx1, hx2⟩
  · exact ⟨hy1, hy2⟩

theorem randomInRange_mem (r lo hi : ℚ) (h0 : 0 ≤ r) (h1 : r < 1) (hle : lo ≤ hi) :
    lo ≤ randomInRange r lo hi ∧ randomInRange r lo hi ≤ hi := by
  unfold randomInRange
  constructor
  · nlinarith
  · nlinarith

/-! ## Claim theorems -/

/-- C1: the claim asserts that `calculateMetrics` returns six finite values
for every input, including the empty sequence.  The code violates this: on
the empty sequence `avgReturn = totalReturn / returns.length` is `0/0 = NaN`
in JavaScript, and `sharpeRatio`, `sortinoRatio` and `winRate` come out
`NaN` (while `totalReturn`, `maxDrawdown` and `calmarRatio` are `0`).  The
explicit `stdDev === 0` / `maxDrawdown === 0` guards show the code's own
intent to never emit a non-finite value, so this is recorded as a code bug
at the failing input `returns = []`. -/
theorem calculateMetrics_empty_has_nan :
    (calculateMetrics []).sharpeRatio = .nan ∧ (calculateMetrics []).sortinoRatio = .nan ∧
    (calculateMetrics []).winRate = .nan ∧ (calculateMetrics []).totalReturn = .rat 0 ∧
    (calculateMetrics []).maxDrawdown = .rat 0 ∧ (calculateMetrics []).calmarRatio = .rat 0 := by
  with_unfolding_all decide

/-- C2 counterexample: the spec's 3-bar scenario cannot produce the claimed
stop-loss exit at 95, because with at most 22 bars the two moving-average
windows cover identical slices, no position is ever entered, and the
simulation yields no trades at all. -/
theorem evaluateReturns_threeBars_empty : evaluateReturns specStrategy threeBars = [] := by
  with_unfolding_all decide

/-- C2 (amended): when both thresholds are touched within one bar's range,
a long position exits at `min(stopLoss, takeProfit)` and a short position at
`max(stopLoss, takeProfit)`; and in a 23-bar realization of the spec's
scenario (long entered at 100, stop-loss 5%, take-profit 10%, final bar low
94 / high 111) the trade exits at the stop-loss 95, i.e. with return
`-5% = -1/20`. -/
theorem simStep_tie_break_conservative :
    (∀ (strategy : StrategyConfig) (data : List MarketData) (st : SimState) (i : ℕ)
        (cd : MarketData), data.get? i = some cd → st.position = 1 →
        cd.low ≤ st.entryPrice * (1 - strategy.stopLossPercentage / 100) →
        st.entryPrice * (1 + strategy.takeProfitPercentage / 100) ≤ cd.high →
        (simStep strategy data st i).returns = st.returns ++
          [(min (st.entryPrice * (1 - strategy.stopLossPercentage / 100))
              (st.entryPrice * (1 + strategy.takeProfitPercentage / 100)) - st.entryPrice)
            / st.entryPrice]) ∧
    (∀ (strategy : StrategyConfig) (data : List MarketData) (st : SimState) (i : ℕ)
        (cd : MarketData), data.get? i = some cd → st.position = -1 →
        st.entryPrice * (1 + strategy.stopLossPercentage / 100) ≤ cd.high →
        cd.low ≤ st.entryPrice * (1 - strategy.takeProfitPercentage / 100) →
        (simStep strategy data st i).returns = st.returns ++
          [(-1 : ℚ) * (max (st.entryPrice * (1 + strategy.stopLossPercentage / 100))
              (st.entryPrice * (1 - strategy.takeProfitPercentage / 100)) - st.entryPrice)
            / st.entryPrice]) ∧
    evaluateReturns specStrategy bars23 = [-(1 / 20)] := by
  refine ⟨?_, ?_, by with_unfolding_all decide⟩
  · intro strategy data st i cd hget hpos hlow hhigh
    simp only [simStep, hget, hpos]
    norm_num
    rw [if_pos (Or.inl hlow)]
  · intro strategy data st i cd hget hpos hhigh hlow
    simp only [simStep, hget, hpos]
    norm_num
    rw [if_pos (Or.inl hhigh)]

/-- C2 witness: the long tie-break conjunct applied to a concrete open long
position at entry 100 on the third bar of `threeBars` (low 94 touches the
stop 95, high 111 touches the target 110): the appended return is the
stop-loss one. -/
theorem simStep_tie_break_conservative_witness :
    (simStep specStrategy threeBars ⟨[], 1, 100⟩ 2).returns = [] ++
      [(min ((100 : ℚ) * (1 - specStrategy.stopLossPercentage / 100))
          (100 * (1 + specStrategy.takeProfitPercentage / 100)) - 100) / 100] :=
  simStep_tie_break_conservative.1 specStrategy threeBars ⟨[], 1, 100⟩ 2 (mkBar 111 94 100)
    (by with_unfolding_all rfl) rfl (by norm_num [mkBar, specStrategy])
    (by norm_num [mkBar, specStrategy])

/-- C3 counterexample: a configuration whose `maxPositionSize` bound has
`min = 1 > 0 = max` is not rejected: `optimize` runs the simulation and
returns the evaluation of a generated candidate instead of failing fast.
(No validation exists anywhere in the source: the constructor only stores
the config.) -/
theorem optimize_accepts_inverted_bound :
    optimize badBoundsCfg [] zeroStream =
      Except.ok (evaluateStrategy (initCandidate badBoundsCfg zeroStream 0 0) []) := by
  with_unfolding_all rfl

/-- C4 counterexample: the claim says `optimize` returns a best candidate for
every positive population size, failing only when the population is empty.
With `populationSize = 1` (positive) and one generation the code throws: the
breeding pool is `floor(1/2) = 0` candidates, and the parent lookup
`selected[...]` is `undefined`. -/
theorem optimize_throws_for_population_one :
    optimize { demoCfg with populationSize := 1 } [] zeroStream =
      Except.error "TypeError: Cannot read properties of undefined (reading 'parameters')" := by
  with_unfolding_all rfl

/-- C8 counterexample: two runs of `optimize` on identical configuration and
identical (empty) historical data, differing only in the ambient
`Math.random()` draws — which the source does not seed and no caller can fix
— return different best candidates. -/
theorem optimize_differs_with_ambient_randomness :
    (optimize demoCfg [] zeroStream).toOption.map (fun r => r.parameters.maxPositionSize) ≠
      (optimize demoCfg [] halfStream).toOption.map (fun r => r.parameters.maxPositionSize) := by
  with_unfolding_all decide

/-- C8 (amended): `optimize` is deterministic in its explicit inputs plus the
stream of `Math.random()` draws: two runs with identical configuration,
identical historical data and pointwise-identical random streams produce
identical results.  (The code itself exposes no seed — the stream is ambient
`Math.random()` — so determinism holds only relative to the draws.) -/
theorem optimize_deterministic_given_draws (cfg : OptimizationConfig)
    (data : List MarketData) (s1 s2 : ℕ → ℚ) (h : ∀ n, s1 n = s2 n) :
    optimize cfg data s1 = optimize cfg data s2 := by
  rw [funext h]

/-- C8 witness: the determinism theorem applied to `demoCfg`, empty data and
two syntactically distinct but pointwise-equal streams. -/
theorem optimize_deterministic_given_draws_witness :
    optimize demoCfg [] zeroStream = optimize demoCfg [] (fun _ => 0) :=
  optimize_deterministic_given_draws demoCfg [] zeroStream (fun _ => 0) (fun _ => rfl)

/-- C9: the best-ever accumulator update (`if (!bestResult || currentBest >
bestResult)`) and the within-generation reducer both use strictly-greater
comparison on the configured objective: a candidate whose objective value
equals the incumbent's never replaces the incumbent. -/
theorem updateBest_keeps_incumbent_on_tie (obj : Objective) (b currentBest : OptimizationResult)
    (h : getObjective obj currentBest.metrics = getObjective obj b.metrics) :
    updateBest obj (some b) currentBest = b ∧ betterOf obj b currentBest = b := by
  constructor
  · show (if jsGt (getObjective obj currentBest.metrics) (getObjective obj b.metrics)
        then currentBest else b) = b
    rw [h, jsGt_self]
    simp
  · show (if jsGt (getObjective obj currentBest.metrics) (getObjective obj b.metrics)
        then currentBest else b) = b
    rw [h, jsGt_self]
    simp

/-- C9 witness: a later candidate with the same objective value (`sharpeRatio
= 1/2`) but different parameters does not replace the incumbent. -/
theorem updateBest_keeps_incumbent_on_tie_witness :
    updateBest .sharpeRatio (some (mkCand "B" (1 / 2))) (mkCand "D" (1 / 2)) = mkCand "B" (1 / 2) :=
  (updateBest_keeps_incumbent_on_tie .sharpeRatio (mkCand "B" (1 / 2)) (mkCand "D" (1 / 2)) rfl).1

/-- C6: crossover inherits every numeric field from one parent or the other
(never a blend), takes the set union of the parents' indicator lists, and —
whenever both parents satisfy the configured bounds — produces a child
satisfying them as well. -/
theorem crossover_inherits_and_respects_bounds (s : ℕ → ℚ) (k : ℕ) (c : Constraints)
    (p1 p2 : StrategyConfig) (h1 : inBounds c p1) (h2 : inBounds c p2) :
    ((crossover s k p1 p2).maxPositionSize = p1.maxPositionSize ∨
      (crossover s k p1 p2).maxPositionSize = p2.maxPositionSize) ∧
    ((crossover s k p1 p2).stopLossPercentage = p1.stopLossPercentage ∨
      (crossover s k p1 p2).stopLossPercentage = p2.stopLossPercentage) ∧
    ((crossover s k p1 p2).takeProfitPercentage = p1.takeProfitPercentage ∨
      (crossover s k p1 p2).takeProfitPercentage = p2.takeProfitPercentage) ∧
    ((crossover s k p1 p2).maxDrawdown = p1.maxDrawdown ∨
      (crossover s k p1 p2).maxDrawdown = p2.maxDrawdown) ∧
    (∀ a, a ∈ (crossover s k p1 p2).indicators ↔ a ∈ p1.indicators ∨ a ∈ p2.indicators) ∧
    inBounds c (crossover s k p1 p2) := by
  obtain ⟨h1a, h1b, h1c, h1d, h1e, h1f, h1g, h1h⟩ := h1
  obtain ⟨h2a, h2b, h2c, h2d, h2e, h2f, h2g, h2h⟩ := h2
  refine ⟨pick_or _ _ _, pick_or _ _ _, pick_or _ _ _, pick_or _ _ _, ?_, ?_⟩
  · intro a
    show a ∈ setDedup (p1.indicators ++ p2.indicators) ↔ _
    rw [mem_setDedup, List.mem_append]
  · exact ⟨(pick_bound _ _ _ h1a h1b h2a h2b).1, (pick_bound _ _ _ h1a h1b h2a h2b).2,
      (pick_bound _ _ _ h1c h1d h2c h2d).1, (pick_bound _ _ _ h1c h1d h2c h2d).2,
      (pick_bound _ _ _ h1e h1f h2e h2f).1, (pick_bound _ _ _ h1e h1f h2e h2f).2,
      (pick_bound _ _ _ h1g h1h h2g h2h).1, (pick_bound _ _ _ h1g h1h h2g h2h).2⟩

/-- C6 witness: the crossover theorem applied to two concrete in-bounds
parents under `demoCfg`'s constraints. -/
theorem crossover_inherits_and_respects_bounds_witness :
    inBounds demoCfg.constraints (crossover zeroStream 0 specStrategy specStrategy) :=
  (crossover_inherits_and_respects_bounds zeroStream 0 demoCfg.constraints
    specStrategy specStrategy (by with_unfolding_all decide)
    (by with_unfolding_all decide)).2.2.2.2.2

/-- C7: with `mutationRate = 0` mutation returns its input unchanged (every
`Math.random() < 0` coin fails); with `mutationRate = 1` every numeric field
is redrawn by `randomInRange` (draws `s (k+1)`, `s (k+3)`, `s (k+5)`,
`s (k+7)`; the coins consume the even offsets) and the result lies within the
configured bounds; a field whose coin fails passes through unchanged (stated
for the first field, whose coin is the draw `s k`); the non-numeric fields
always pass through. -/
theorem mutate_rate_endpoints (cfg : OptimizationConfig) (s : ℕ → ℚ) (k : ℕ)
    (strategy : StrategyConfig) :
    (cfg.mutationRate = 0 → (∀ n, 0 ≤ s n) → (mutate cfg s k strategy).1 = strategy) ∧
    (cfg.mutationRate = 1 → StreamOK s → boundsOrdered cfg.constraints →
      ((mutate cfg s k strategy).1.maxPositionSize =
          randomInRange (s (k + 1)) cfg.constraints.maxPositionSize.1
            cfg.constraints.maxPositionSize.2 ∧
        (mutate cfg s k strategy).1.stopLossPercentage =
          randomInRange (s (k + 3)) cfg.constraints.stopLossPercentage.1
            cfg.constraints.stopLossPercentage.2 ∧
        (mutate cfg s k strategy).1.takeProfitPercentage =
          randomInRange (s (k + 5)) cfg.constraints.takeProfitPercentage.1
            cfg.constraints.takeProfitPercentage.2 ∧
        (mutate cfg s k strategy).1.maxDrawdown =
          randomInRange (s (k + 7)) cfg.constraints.maxDrawdown.1
            cfg.constraints.maxDrawdown.2) ∧
      inBounds cfg.constraints (mutate cfg s k strategy).1) ∧
    (cfg.mutationRate ≤ s k →
      (mutate cfg s k strategy).1.maxPositionSize = strategy.maxPositionSize) ∧
    ((mutate cfg s k strategy).1.name = strategy.name ∧
      (mutate cfg s k strategy).1.description = strategy.description ∧
      (mutate cfg s k strategy).1.riskLevel = strategy.riskLevel ∧
      (mutate cfg s k strategy).1.rebalanceFrequency = strategy.rebalanceFrequency ∧
      (mutate cfg s k strategy).1.indicators = strategy.indicators) := by
  refine ⟨?_, ?_, ?_, rfl, rfl, rfl, rfl, rfl⟩
  · intro h0 hs
    have hf : ∀ n v (b : ℚ × ℚ), mutateField cfg.mutationRate b s n v = (v, n + 1) := by
      intro n v b
      unfold mutateField
      rw [h0, if_neg (not_lt.mpr (hs n))]
    show ({ strategy with
        maxPositionSize := (mutateField cfg.mutationRate cfg.constraints.maxPositionSize s k
          strategy.maxPositionSize).1
        stopLossPercentage := _
        takeProfitPercentage := _
        maxDrawdown := _ } : StrategyConfig) = strategy
    rw [hf, hf, hf, hf]
  · intro h1 hs hb
    have hf : ∀ n v (b : ℚ × ℚ), mutateField cfg.mutationRate b s n v =
        (randomInRange (s (n + 1)) b.1 b.2, n + 2) := by
      intro n v b
      unfold mutateField
      rw [h1, if_pos (hs n).2]
    obtain ⟨hb1, hb2, hb3, hb4⟩ := hb
    constructor
    · refine ⟨?_, ?_, ?_, ?_⟩ <;> simp only [mutate, hf]
    · have e : (mutate cfg s k strategy).1 = { strategy with
          maxPositionSize := randomInRange (s (k + 1)) cfg.constraints.maxPositionSize.1
            cfg.constraints.maxPositionSize.2
          stopLossPercentage := randomInRange (s (k + 3)) cfg.constraints.stopLossPercentage.1
            cfg.constraints.stopLossPercentage.2
          takeProfitPercentage := randomInRange (s (k + 5)) cfg.constraints.takeProfitPercentage.1
            cfg.constraints.takeProfitPercentage.2
          maxDrawdown := randomInRange (s (k + 7)) cfg.constraints.maxDrawdown.1
            cfg.constraints.maxDrawdown.2 } := by
        simp only [mutate, hf]
      rw [e]
      exact ⟨(randomInRange_mem _ _ _ (hs (k + 1)).1 (hs (k + 1)).2 hb1).1,
        (randomInRange_mem _ _ _ (hs (k + 1)).1 (hs (k + 1)).2 hb1).2,
        (randomInRange_mem _ _ _ (hs (k + 3)).1 (hs (k + 3)).2 hb2).1,
        (randomInRange_mem _ _ _ (hs (k + 3)).1 (hs (k + 3)).2 hb2).2,
        (randomInRange_mem _ _ _ (hs (k + 5)).1 (hs (k + 5)).2 hb3).1,
        (randomInRange_mem _ _ _ (hs (k + 5)).1 (hs (k + 5)).2 hb3).2,
        (randomInRange_mem _ _ _ (hs (k + 7)).1 (hs (k + 7)).2 hb4).1,
        (randomInRange_mem _ _ _ (hs (k + 7)).1 (hs (k + 7)).2 hb4).2⟩
  · intro hk
    have hf : mutateField cfg.mutationRate cfg.constraints.maxPositionSize s k
        strategy.maxPositionSize = (strategy.maxPositionSize, k + 1) := by
      unfold mutateField
      rw [if_neg (not_lt.mpr hk)]
    simp only [mutate, hf]

/-- C7 witness: mutation under `demoCfg` (`mutationRate = 0`) with the
all-zeros stream leaves the concrete strategy unchanged. -/
theorem mutate_rate_endpoints_witness :
    (mutate demoCfg zeroStream 0 specStrategy).1 = specStrategy :=
  (mutate_rate_endpoints demoCfg zeroStream 0 specStrategy).1 rfl (fun _ => le_refl 0)

/-! ## Lemmas about the simulation loop -/

theorem simStep_flat_returns (strategy : StrategyConfig) (data : List MarketData)
    (st : SimState) (i : ℕ) (h : st.position = 0) :
    (simStep strategy data st i).returns = st.returns := by
  unfold simStep
  cases hg : data.get? i with
  | none => rfl
  | some cd =>
      simp only [h]
      rw [if_pos trivial]
      split_ifs <;> rfl

theorem simStep_early_eq (strategy : StrategyConfig) (data : List MarketData)
    (st : SimState) (i : ℕ) (hi : i ≤ 20) (h : st.position = 0) :
    simStep strategy data st i = st := by
  unfold simStep
  cases hg : data.get? i with
  | none => rfl
  | some cd =>
      have e20 : i - 20 = 0 := Nat.sub_eq_zero_of_le hi
      have e50 : i - 50 = 0 := Nat.sub_eq_zero_of_le (le_trans hi (by norm_num))
      simp [e20, e50, h]

theorem foldl_simStep_early (strategy : StrategyConfig) (data : List MarketData) :
    ∀ (l : List ℕ) (st : SimState), (∀ i ∈ l, i ≤ 20) → st.position = 0 →
      l.foldl (simStep strategy data) st = st
  | [], _, _, _ => rfl
  | i :: is, st, h, hp => by
      rw [List.foldl_cons, simStep_early_eq strategy data st i (h i (List.mem_cons_self _ _)) hp]
      exact foldl_simStep_early strategy data is st
        (fun j hj => h j (List.mem_cons_of_mem _ hj)) hp

/-- C10: with at most 22 bars the simulation produces no trade returns: the
two moving-average slices coincide for every index `i ≤ 20` (`Math.max(0,
i-20) = Math.max(0, i-50) = 0`), so the position stays flat through index 20,
the earliest possible entry is index 21, and an exit — the only step that
appends a return — needs an index ≥ 22.  The embedding is a total function,
so no input (the empty sequence included) raises. -/
theorem evaluateReturns_short_input (strategy : StrategyConfig) (data : List MarketData)
    (h : data.length ≤ 22) : evaluateReturns strategy data = [] := by
  unfold evaluateReturns
  rcases Nat.lt_or_ge (data.length - 1) 21 with hlt | hge
  · rw [foldl_simStep_early strategy data (List.range' 1 (data.length - 1)) ⟨[], 0, 0⟩
      (fun i hi => by rw [List.mem_range'_1] at hi; omega) rfl]
  · have hm : data.length - 1 = 21 := by omega
    have hsplit : List.range' 1 21 = List.range' 1 20 ++ [21] := by decide
    rw [hm, hsplit, List.foldl_append,
      foldl_simStep_early strategy data (List.range' 1 20) ⟨[], 0, 0⟩
        (fun i hi => by rw [List.mem_range'_1] at hi; omega) rfl,
      List.foldl_cons, List.foldl_nil]
    exact simStep_flat_returns strategy data ⟨[], 0, 0⟩ 21 rfl

/-- C10 witness: 22 identical bars produce an empty return sequence. -/
theorem evaluateReturns_short_input_witness :
    evaluateReturns specStrategy (List.replicate 22 (mkBar 100 100 100)) = [] :=
  evaluateReturns_short_input specStrategy (List.replicate 22 (mkBar 100 100 100))
    (by rw [List.length_replicate])

/-! ## Success and failure of the generational loop -/

theorem jsGet_nil {α : Type} (i : ℤ) : jsGet ([] : List α) i = none := by
  unfold jsGet
  split_ifs <;> rfl

theorem jsGet_floor_some {α : Type} (l : List α) (r : ℚ) (h0 : 0 ≤ r) (h1 : r < 1)
    (hl : 1 ≤ l.length) : ∃ p, jsGet l ⌊r * (l.length : ℚ)⌋ = some p := by
  have hge : (0 : ℤ) ≤ ⌊r * (l.length : ℚ)⌋ :=
    Int.floor_nonneg.mpr (mul_nonneg h0 (Nat.cast_nonneg _))
  have hlt : ⌊r * (l.length : ℚ)⌋ < (l.length : ℤ) := by
    refine Int.floor_lt.mpr ?_
    push_cast
    calc r * (l.length : ℚ) < 1 * (l.length : ℚ) := by
          refine mul_lt_mul_of_pos_right h1 ?_
          exact_mod_cast Nat.lt_of_lt_of_le Nat.zero_lt_one hl
      _ = (l.length : ℚ) := one_mul _
  have htn : (⌊r * (l.length : ℚ)⌋).toNat < l.length := by
    rw [Int.toNat_lt' (by omega)]
    exact hlt
  refine ⟨l.get ⟨(⌊r * (l.length : ℚ)⌋).toNat, htn⟩, ?_⟩
  rw [jsGet, if_pos hge]
  exact List.get?_eq_get htn

theorem makeChild_ok (cfg : OptimizationConfig) (s : ℕ → ℚ) (k : ℕ)
    (selected : List OptimizationResult) (hs : StreamOK s) (hsel : 1 ≤ selected.length) :
    ∃ ck : StrategyConfig × ℕ, makeChild cfg s k selected = .ok ck := by
  obtain ⟨p1, hp1⟩ := jsGet_floor_some selected (s k) (hs k).1 (hs k).2 hsel
  obtain ⟨p2, hp2⟩ := jsGet_floor_some selected (s (k + 1)) (hs (k + 1)).1 (hs (k + 1)).2 hsel
  exact ⟨mutate cfg s (k + 9) (crossover s (k + 2) p1.parameters p2.parameters),
    by simp only [makeChild, hp1, hp2]⟩

theorem buildPopulation_ok (cfg : OptimizationConfig) (s : ℕ → ℚ)
    (selected : List OptimizationResult) (hs : StreamOK s) (hsel : 1 ≤ selected.length) :
    ∀ (fuel k : ℕ), ∃ pop k', buildPopulation cfg s selected fuel k = .ok (pop, k') ∧
      pop.length = fuel
  | 0, k => ⟨[], k, rfl, rfl⟩
  | fuel + 1, k => by
      obtain ⟨⟨c, k1⟩, hc⟩ := makeChild_ok cfg s k selected hs hsel
      obtain ⟨pop, k2, hb, hl⟩ := buildPopulation_ok cfg s selected hs hsel fuel k1
      refine ⟨c :: pop, k2, ?_, by simp [hl]⟩
      simp only [buildPopulation, hc, hb]

theorem length_selectTopHalf (obj : Objective) (results : List OptimizationResult) :
    (selectTopHalf obj results).length = results.length / 2 := by
  unfold selectTopHalf
  rw [List.length_take, length_stableSort]
  exact min_eq_left (Nat.div_le_self _ _)

theorem generationStep_ok (cfg : OptimizationConfig) (data : List MarketData) (s : ℕ → ℚ)
    (pop : List StrategyConfig) (best : Option OptimizationResult) (k : ℕ)
    (hs : StreamOK s) (hp : 2 ≤ cfg.populationSize) (hlen : pop.length = cfg.populationSize) :
    ∃ pop' b k', generationStep cfg data s (pop, best, k) = .ok (pop', some b, k') ∧
      pop'.length = cfg.populationSize := by
  obtain ⟨p, ps, rfl⟩ : ∃ p ps, pop = p :: ps := by
    cases pop with
    | nil => rw [List.length_nil] at hlen; omega
    | cons a l => exact ⟨a, l, rfl⟩
  have hlc : ps.length + 1 = cfg.populationSize := by
    rw [← hlen, List.length_cons]
  have hsel : 1 ≤ (selectTopHalf cfg.objective (evaluateStrategy p data ::
      ps.map (fun strategy => evaluateStrategy strategy data))).length := by
    rw [length_selectTopHalf, List.length_cons, List.length_map]
    omega
  obtain ⟨newPop, k', hbuild, hlen'⟩ := buildPopulation_ok cfg s _ hs hsel cfg.populationSize k
  refine ⟨newPop, updateBest cfg.objective best
    ((ps.map (fun strategy => evaluateStrategy strategy data)).foldl
      (betterOf cfg.objective) (evaluateStrategy p data)), k', ?_, hlen'⟩
  simp only [generationStep, List.map_cons, currentBestOf, hbuild]

theorem optimizeLoop_ok (cfg : OptimizationConfig) (data : List MarketData) (s : ℕ → ℚ)
    (hs : StreamOK s) (hp : 2 ≤ cfg.populationSize) :
    ∀ (g : ℕ) (pop : List StrategyConfig) (best : Option OptimizationResult) (k : ℕ),
      pop.length = cfg.populationSize →
      ∃ res, optimizeLoop cfg data s g (pop, best, k) = .ok res ∧
        (best.isSome = true → res.isSome = true) ∧ (1 ≤ g → res.isSome = true)
  | 0, pop, best, k, _ => ⟨best, rfl, fun h => h, fun h => absurd h (by omega)⟩
  | g + 1, pop, best, k, hlen => by
      obtain ⟨pop', b, k', hstep, hlen'⟩ :=
        generationStep_ok cfg data s pop best k hs hp hlen
      obtain ⟨res, hloop, hkeep, _⟩ := optimizeLoop_ok cfg data s hs hp g pop' (some b) k' hlen'
      refine ⟨res, ?_, fun _ => hkeep rfl, fun _ => hkeep rfl⟩
      simp only [optimizeLoop, hstep, hloop]

theorem optimize_isOk_of (cfg : OptimizationConfig) (data : List MarketData) (s : ℕ → ℚ)
    (hs : StreamOK s) (hp : 2 ≤ cfg.populationSize) (hg : 1 ≤ cfg.generations) :
    (optimize cfg data s).isOk = true := by
  obtain ⟨res, hloop, _, hone⟩ := optimizeLoop_ok cfg data s hs hp cfg.generations
    (generateInitialPopulation cfg s).1 none (generateInitialPopulation cfg s).2
    (by simp [generateInitialPopulation])
  have hres := hone hg
  cases res with
  | none => exact absurd hres (by simp)
  | some r =>
      simp only [optimize, hloop]
      rfl

theorem optimize_error_zero_generations (cfg : OptimizationConfig) (data : List MarketData)
    (s : ℕ → ℚ) (hg : cfg.generations = 0) :
    optimize cfg data s = .error "Optimization failed to find a solution" := by
  simp only [optimize, hg, optimizeLoop]

theorem optimize_error_empty_population (cfg : OptimizationConfig) (data : List MarketData)
    (s : ℕ → ℚ) (hp : cfg.populationSize = 0) (hg : 1 ≤ cfg.generations) :
    optimize cfg data s = .error "TypeError: Reduce of empty array with no initial value" := by
  obtain ⟨g, hg'⟩ : ∃ g, cfg.generations = g + 1 := ⟨cfg.generations - 1, by omega⟩
  have hinit : (generateInitialPopulation cfg s).1 = [] := by
    simp [generateInitialPopulation, hp]
  have hstep : generationStep cfg data s
      ((generateInitialPopulation cfg s).1, none, (generateInitialPopulation cfg s).2) =
      .error "TypeError: Reduce of empty array with no initial value" := by
    simp only [generationStep, hinit, List.map_nil, currentBestOf]
  simp only [optimize, hg', optimizeLoop, hstep]

theorem optimize_error_population_one (cfg : OptimizationConfig) (data : List MarketData)
    (s : ℕ → ℚ) (hp : cfg.populationSize = 1) (hg : 1 ≤ cfg.generations) :
    optimize cfg data s =
      .error "TypeError: Cannot read properties of undefined (reading 'parameters')" := by
  obtain ⟨g, hg'⟩ : ∃ g, cfg.generations = g + 1 := ⟨cfg.generations - 1, by omega⟩
  have hinit : (generateInitialPopulation cfg s).1 = [initCandidate cfg s 0 0] := by
    simp [generateInitialPopulation, hp, List.range_succ]
  have hsel : ∀ x : OptimizationResult, selectTopHalf cfg.objective [x] = [] := fun x => by
    simp [selectTopHalf]
  have hchild : ∀ k, makeChild cfg s k ([] : List OptimizationResult) =
      .error "TypeError: Cannot read properties of undefined (reading 'parameters')" := by
    intro k
    simp only [makeChild, jsGet_nil]
  have hstep : generationStep cfg data s ((generateInitialPopulation cfg s).1, none,
      (generateInitialPopulation cfg s).2) =
      .error "TypeError: Cannot read properties of undefined (reading 'parameters')" := by
    simp only [generationStep, hinit, List.map_cons, List.map_nil, currentBestOf, hsel, hp,
      buildPopulation, hchild]
  simp only [optimize, hg', optimizeLoop, hstep]

/-- C3 (amended): the source performs no configuration validation at all (the
constructor only stores the config), so an inverted bound (`min > max`) does
not fail fast: for every configuration with an inverted `maxPositionSize`
bound, any data and any draw stream, `optimize` with `populationSize ≥ 2` and
`generations ≥ 1` runs the candidate evaluations to completion and returns a
result. -/
theorem optimize_no_config_validation (popSize gens : ℕ) (mr cr : ℚ) (obj : Objective)
    (cstr : Constraints) (data : List MarketData) (s : ℕ → ℚ) (hs : StreamOK s)
    (hp : 2 ≤ popSize) (hg : 1 ≤ gens)
    (_hbad : cstr.maxPositionSize.2 < cstr.maxPositionSize.1) :
    (optimize ⟨popSize, gens, mr, cr, obj, cstr⟩ data s).isOk = true :=
  optimize_isOk_of ⟨popSize, gens, mr, cr, obj, cstr⟩ data s hs hp hg

/-- C3 witness: the no-validation theorem applied to the concrete inverted
configuration `badBoundsCfg`. -/
theorem optimize_no_config_validation_witness :
    (optimize badBoundsCfg [] zeroStream).isOk = true :=
  optimize_no_config_validation 2 1 0 (1 / 2) .maxDrawdown badBoundsCfg.constraints []
    zeroStream (fun _ => ⟨le_refl 0, by norm_num [zeroStream]⟩) (by norm_num) (by norm_num)
    (by norm_num [badBoundsCfg])

/-- C4 (amended): `optimize` succeeds exactly when `populationSize ≥ 2` and
`generations ≥ 1`.  It throws for an empty population (the first
generation's `reduce` of an empty results array), for `populationSize = 1`
(the breeding pool `floor(1/2) = 0` is empty, so the parent lookup reads
`.parameters` of `undefined`) — refuting the claim that every positive
population size returns a best candidate — and for `generations = 0` (the
best-ever accumulator is still `null` after the loop). -/
theorem optimize_ok_iff (cfg : OptimizationConfig) (data : List MarketData) (s : ℕ → ℚ)
    (hs : StreamOK s) :
    (optimize cfg data s).isOk = true ↔ 2 ≤ cfg.populationSize ∧ 1 ≤ cfg.generations := by
  constructor
  · intro h
    by_contra hc
    rcases Nat.lt_or_ge cfg.generations 1 with hg | hg
    · rw [optimize_error_zero_generations cfg data s (by omega)] at h
      exact absurd h (by simp [Except.isOk, Except.toBool])
    · have hplt : cfg.populationSize < 2 := by
        rcases not_and_or.mp hc with h' | h'
        · omega
        · omega
      rcases Nat.lt_or_ge cfg.populationSize 1 with hp0 | hp1
      · rw [optimize_error_empty_population cfg data s (by omega) hg] at h
        exact absurd h (by simp [Except.isOk, Except.toBool])
      · rw [optimize_error_population_one cfg data s (by omega) hg] at h
        exact absurd h (by simp [Except.isOk, Except.toBool])
  · rintro ⟨hp, hg⟩
    exact optimize_isOk_of cfg data s hs hp hg

/-- C4 witness: the success criterion applied to the concrete `demoCfg`
(population 2, one generation). -/
theorem optimize_ok_iff_witness : (optimize demoCfg [] zeroStream).isOk = true :=
  (optimize_ok_iff demoCfg [] zeroStream (fun _ => ⟨le_refl 0, by norm_num [zeroStream]⟩)).mpr
    ⟨by norm_num [demoCfg], by norm_num [demoCfg]⟩

/-! ## Selection -/

theorem isRat_exists : ∀ {x : MetricVal}, x.isRat = true → ∃ q, x = .rat q
  | .rat q, _ => ⟨q, rfl⟩
  | .sq _ _, h => nomatch h
  | .inf, h => nomatch h
  | .ninf, h => nomatch h
  | .nan, h => nomatch h

/-- C5: the selection step of `optimize` returns `floor(n/2)` of the
evaluated candidates (first conjunct), all drawn from the input (second
conjunct); its output is sorted descending by the configured objective
whenever the objective values are plain rationals (third conjunct: no later
element is strictly greater); and on the spec's five-candidate example with
objective values `[0.1, 0.5, 0.3, 0.5, 0.2]` it returns exactly the two
`0.5` scorers in their original relative order — the sort is stable (fourth
conjunct). -/
theorem selectTopHalf_spec :
    (∀ (obj : Objective) (results : List OptimizationResult),
        (selectTopHalf obj results).length = results.length / 2) ∧
    (∀ (obj : Objective) (results : List OptimizationResult) (r : OptimizationResult),
        r ∈ selectTopHalf obj results → r ∈ results) ∧
    (∀ (obj : Objective) (results : List OptimizationResult),
        (∀ r ∈ results, (getObjective obj r.metrics).isRat = true) →
        (selectTopHalf obj results).Pairwise
          (fun a b => jsGt (getObjective obj b.metrics) (getObjective obj a.metrics) = false)) ∧
    selectTopHalf .sharpeRatio fiveCands = [mkCand "B" (1 / 2), mkCand "D" (1 / 2)] := by
  refine ⟨length_selectTopHalf,
    fun obj results r hr => (mem_stableSort _ r results).mp (List.take_subset _ _ hr),
    ?_, by with_unfolding_all decide⟩
  intro obj results hrat
  have hsorted : (stableSort
      (fun a b => jsSortLe (getObjective obj a.metrics) (getObjective obj b.metrics))
      results).Pairwise
      (fun a b => jsSortLe (getObjective obj a.metrics) (getObjective obj b.metrics) = true) := by
    apply pairwise_stableSort
    · intro a b ha hb
      obtain ⟨p, hp⟩ := isRat_exists (hrat a ha)
      obtain ⟨q, hq⟩ := isRat_exists (hrat b hb)
      rw [hp, hq, jsSortLe_rat_rat, jsSortLe_rat_rat]
      rcases le_total q p with h | h
      · exact Or.inl (decide_eq_true h)
      · exact Or.inr (decide_eq_true h)
    · intro a b c ha hb hc hab hbc
      obtain ⟨p, hp⟩ := isRat_exists (hrat a ha)
      obtain ⟨q, hq⟩ := isRat_exists (hrat b hb)
      obtain ⟨u, hu⟩ := isRat_exists (hrat c hc)
      rw [hp, hq, jsSortLe_rat_rat] at hab
      rw [hq, hu, jsSortLe_rat_rat] at hbc
      rw [hp, hu, jsSortLe_rat_rat]
      exact decide_eq_true (le_trans (of_decide_eq_true hbc) (of_decide_eq_true hab))
  have htake : (selectTopHalf obj results).Pairwise
      (fun a b => jsSortLe (getObjective obj a.metrics) (getObjective obj b.metrics) = true) :=
    List.Pairwise.sublist (List.take_sublist _ _) hsorted
  refine htake.imp_of_mem ?_
  intro a b ha hb hab
  have ha' : a ∈ results :=
    (mem_stableSort _ a results).mp (List.take_subset _ _ ha)
  have hb' : b ∈ results :=
    (mem_stableSort _ b results).mp (List.take_subset _ _ hb)
  obtain ⟨p, hp⟩ := isRat_exists (hrat a ha')
  obtain ⟨q, hq⟩ := isRat_exists (hrat b hb')
  rw [hp, hq, jsSortLe_rat_rat] at hab
  rw [hp, hq, jsGt_rat_rat]
  exact decide_eq_false (not_lt.mpr (of_decide_eq_true hab))

/-- C5 witness: the sortedness conjunct applied to the concrete
five-candidate example. -/
theorem selectTopHalf_spec_witness :
    (selectTopHalf .sharpeRatio fiveCands).Pairwise
      (fun a b => jsGt (getObjective .sharpeRatio b.metrics)
        (getObjective .sharpeRatio a.metrics) = false) :=
  selectTopHalf_spec.2.2.1 .sharpeRatio fiveCands (by with_unfolding_all decide)

end Morgan
